import Mathlib

/-!
# FloatChat-Minimal: verification of the intent-classification and
# domain-prioritized search-ranking pipeline

Shallow embedding of the core pipeline of the repository:
* `web_search_tool.py` — `WebSearchTool.search`, `_extract_domain`,
  `_is_disallowed_domain`, `_sort_by_priority` (`priority_score`);
* `agent_adk.py` — `FloatChatMinimal.classify_intent`, `enhance_query`;
* `api.py` — the `/search` endpoint's validation (`handleSearch` in the spec).

Python strings are modelled as Lean `String`s and string primitives
(`in`, `.lower()`, `.startswith`, slicing) are given structurally
recursive definitions over the character list, so every definition is
executable and kernel-evaluable.  The external Google Custom Search
backend is modelled as a function from the built request parameters to
`Option (List Item)`: `none` stands for any failure of the backend call
(network error, non-2xx status via `raise_for_status`, or a payload on
which parsing raises) — in the source all of these are caught by the
`except` clauses of `search`.
-/

namespace FloatChat

/-! ## String primitives (models of the Python string operations used) -/

/-- Model of Python `str.lower()` (the strings handled by this code are
ASCII, where `Char.toLower` agrees with Python). -/
def lowerStr (s : String) : String :=
  ⟨s.data.map Char.toLower⟩

/-- Occurrence of `pat` as a contiguous sublist: helper for Python's
`pat in s` on character lists. -/
def containsList (pat : List Char) : List Char → Bool
  | [] => pat.isEmpty
  | c :: rest => pat.isPrefixOf (c :: rest) || containsList pat rest

/-- Model of Python `pat in s` (substring containment). -/
def containsSub (pat s : String) : Bool :=
  containsList pat.data s.data

/-- Model of Python slicing `l[:k]` for an `int` bound `k`: a
nonnegative bound takes the first `k` elements, a negative bound drops
the last `-k`. -/
def pySliceTo (l : List α) (k : Int) : List α :=
  if 0 ≤ k then l.take k.toNat else l.take (l.length - (-k).toNat)

/-! ## Domain policy (`WebSearchTool.__init__`) -/

/-- `self.priority_domains` of `WebSearchTool`. -/
def priority_domains : List String :=
  [ "incois.gov.in",
    "argo.ucsd.edu",
    "doi.org",
    "www.ocean-ops.org",
    "www.usgodae.org",
    "www.seanoe.org",
    "www.ncei.noaa.gov",
    "www.jcommops.org",
    "www.euro-argo.eu",
    "www.ifremer.fr" ]

/-- `self.disallowed_patterns` of `WebSearchTool`. -/
def disallowed_patterns : List String :=
  [ "facebook.com", "twitter.com", "instagram.com",
    "contentfarm", "ai-written", "generated-content" ]

/-! ## Domain extraction (`WebSearchTool._extract_domain`) -/

/-- Helper: after `"://"`, the netloc runs up to the first `/`, `?` or `#`
(model of how `urllib.parse.urlparse` delimits the authority). -/
def takeUntilDelim (cs : List Char) : List Char :=
  cs.takeWhile (fun c => !(c == '/' || c == '?' || c == '#'))

/-- Helper: the remainder of the character list after the first
occurrence of `"://"` (scheme separator), if any. -/
def afterSchemeMarker : List Char → Option (List Char)
  | [] => none
  | c :: rest =>
    if [':', '/', '/'].isPrefixOf (c :: rest) then some ((c :: rest).drop 3)
    else afterSchemeMarker rest

/-- Model of `urllib.parse.urlparse(url).netloc` for the URL shapes this
code receives: the host part after `scheme://` (or after a leading
`//`), up to the first `/`, `?` or `#`; empty when the URL has no
authority component. -/
def extractNetloc (url : String) : String :=
  match afterSchemeMarker url.data with
  | some rest => ⟨takeUntilDelim rest⟩
  | none =>
    if "//".data.isPrefixOf url.data then ⟨takeUntilDelim (url.data.drop 2)⟩
    else ""

/-- `WebSearchTool._extract_domain`: lower-cased netloc with one leading
`"www."` stripped. -/
def extract_domain (url : String) : String :=
  let domain := lowerStr (extractNetloc url)
  if "www.".data.isPrefixOf domain.data then ⟨domain.data.drop 4⟩
  else domain

/-- `WebSearchTool._is_disallowed_domain`: substring match of any
deny-list pattern against the lower-cased domain. -/
def is_disallowed_domain (domain : String) : Bool :=
  disallowed_patterns.any (fun pat => containsSub pat (lowerStr domain))

/-! ## Result records and ranking (`SearchResult`, `_sort_by_priority`) -/

/-- `SearchResult` (pydantic model of `web_search_tool.py`). -/
structure SearchResult where
  rank : Nat
  title : String
  url : String
  snippet : String
  published : Option String := none
  updated : Option String := none
  source : String
deriving DecidableEq, Repr

/-- Python truthiness of an optional string (`None` and `""` are falsy). -/
def truthy : Option String → Bool
  | none => false
  | some s => !(s == "")

/-- Domain priority index used by `priority_score`: the 0-based position
of the domain in `priority_domains` when present, else the list's
length (Python: `index` if `domain in self.priority_domains` else
`len`).  `List.findIdx` returns exactly this. -/
def priority_idx (domain : String) : Nat :=
  priority_domains.findIdx (fun d => d == domain)

/-- The recency component of `priority_score`.  `date_str` is
`result.published or result.updated`, evaluated only when that
disjunction is truthy; the year detection is substring containment of
the literal strings `"2024"`, `"2025"`, `"2023"` (the `except` clause of
the source can never fire, since `date_str` is then a truthy string). -/
def recency_score (r : SearchResult) : Int :=
  if truthy r.published || truthy r.updated then
    let date_str := if truthy r.published then r.published.getD ""
                    else r.updated.getD ""
    if containsSub "2024" date_str || containsSub "2025" date_str then -1
    else if containsSub "2023" date_str then 0
    else 1
  else 0

/-- `priority_score` of `_sort_by_priority`: the Python sort key
`(priority_idx, recency_score, rank)`. -/
def priority_score (r : SearchResult) : Nat × Int × Nat :=
  (priority_idx r.source, recency_score r, r.rank)

/-- Lexicographic (non-strict) comparison of the sort keys — Python's
tuple `<=`. -/
def tupLE (x y : Nat × Int × Nat) : Bool :=
  decide (x.1 < y.1 ∨ (x.1 = y.1 ∧
    (x.2.1 < y.2.1 ∨ (x.2.1 = y.2.1 ∧ x.2.2 ≤ y.2.2))))

/-- One result precedes another when its `priority_score` key is
lexicographically ≤. -/
def result_le (a b : SearchResult) : Bool :=
  tupLE (priority_score a) (priority_score b)

/-- Stable insertion of one element into a list sorted by `le`: the new
element goes before the first existing element it is `le` to. -/
def sortedInsert (le : α → α → Bool) (a : α) : List α → List α
  | [] => [a]
  | b :: l => if le a b then a :: b :: l else b :: sortedInsert le a l

/-- Stable insertion sort.  Python's `sorted(results, key=...)` is the
stable ascending sort by the key; for a total, transitive `le` the
stable sorted permutation is unique, so this insertion sort computes
exactly what `sorted` returns. -/
def stableSort (le : α → α → Bool) : List α → List α
  | [] => []
  | a :: l => sortedInsert le a (stableSort le l)

/-- `WebSearchTool._sort_by_priority`:
`sorted(results, key=priority_score)`. -/
def sort_by_priority (results : List SearchResult) : List SearchResult :=
  stableSort result_le results

/-! ## Search executor (`WebSearchTool.search`) -/

/-- One raw backend hit, as consumed by the parsing loop of `search`.
`pagemap_date` models `self._extract_date(item["pagemap"])` when the hit
has a `pagemap` key, and `none` when the key is absent or the extractor
finds no date — in both cases it is exactly the value the loop assigns
to `result.published`. -/
structure Item where
  link : String
  title : String
  snippet : String
  pagemap_date : Option String := none
deriving DecidableEq, Repr

/-- The request parameters `search` sends to the backend (`params` dict:
the final `q`, `num`, and the optional `dateRestrict`; the constant
`key`/`cx`/`safe` entries carry no information). -/
structure BackendRequest where
  q : String
  num : Int
  dateRestrict : Option String
deriving DecidableEq, Repr

/-- The request-building part of `search`: `num = min(top_k, 10)`;
`dateRestrict` from the time-range mapping with default `"y1"` unless
`time_range == "any"`; `q` wrapped with the `site:` OR-clause when a
non-empty site filter is given. -/
def buildParams (query : String) (site_filter : Option (List String))
    (time_range : String) (top_k : Int) : BackendRequest :=
  let dr : Option String :=
    if time_range == "any" then none
    else some (((([("week", "d7"), ("month", "m1"), ("year", "y1")] :
      List (String × String)).lookup time_range)).getD "y1")
  let q :=
    match site_filter with
    | some domains =>
      if domains.isEmpty then query
      else query ++ " (" ++
        String.intercalate " OR " (domains.map (fun d => "site:" ++ d)) ++ ")"
    | none => query
  ⟨q, min top_k 10, dr⟩

/-- The parsing loop of `search`: enumerate the backend items, derive
each domain, skip (`continue`) hits whose domain is disallowed, and
build a `SearchResult` with the 1-based enumeration index as `rank`
(`updated` is never set by the loop). -/
def parse_results (items : List Item) : List SearchResult :=
  items.enum.filterMap (fun p =>
    let domain := extract_domain p.2.link
    if is_disallowed_domain domain then none
    else some ⟨p.1 + 1, p.2.title, p.2.link, p.2.snippet,
               p.2.pagemap_date, none, domain⟩)

/-- `WebSearchTool.search`.  `backendFn` models the
`requests.get` + `raise_for_status` + `.json()` + `data.get("items", [])`
sequence: it returns `some items` on success and `none` when the call
raises (network error, non-2xx status, malformed payload) — the `except`
clauses then return an empty `SearchResponse`.  On success the parsed
results are sorted by priority and truncated with `results[:top_k]`. -/
def search (backendFn : BackendRequest → Option (List Item))
    (query : String) (site_filter : Option (List String))
    (time_range : String) (top_k : Int) : List SearchResult :=
  match backendFn (buildParams query site_filter time_range top_k) with
  | none => []
  | some items => pySliceTo (sort_by_priority (parse_results items)) top_k

/-! ## `/search` endpoint validation (`api.py::search`, the spec's
`handleSearch`) -/

/-- `SearchRequest` of `api.py` (the `query`/`site_filter`/`time_range`/
`top_k` payload; `top_k` is a Python `int`, so `Int`). -/
structure SearchRequest where
  query : String
  site_filter : Option (List String) := none
  time_range : String := "year"
  top_k : Int := 5
deriving DecidableEq, Repr

/-- The `/search` endpoint handler of `api.py`.  Returns either the
HTTP error `(status, detail)` raised by validation, or the search tool's
results, paired with the number of backend searches performed (the
spec's "backend call counter": the endpoint constructs `WebSearchTool`
and calls `search` only after both validations pass). -/
def handleSearch (backendFn : BackendRequest → Option (List Item))
    (req : SearchRequest) :
    Except (Nat × String) (List SearchResult) × Nat :=
  if req.top_k < 1 ∨ req.top_k > 10 then
    (Except.error (400, "top_k must be between 1 and 10"), 0)
  else if req.time_range ∉ (["any", "year", "month", "week"] : List String) then
    (Except.error (400, "Invalid time_range"), 0)
  else
    (Except.ok (search backendFn req.query req.site_filter
      req.time_range req.top_k), 1)

/-! ## Intent classifier and query enhancer (`agent_adk.py`) -/

/-- `self.intent_patterns` of `FloatChatMinimal`, in declaration order
(Python dicts preserve insertion order). -/
def intent_patterns : List (String × List String) :=
  [ ("program_overview",
      [ "what is argo", "how does argo work", "variables measured by argo",
        "argo program", "argo floats", "argo network" ]),
    ("indian_ocean_status",
      [ "indian ocean argo", "status of argo floats in arabian sea",
        "bay of bengal floats", "bay of bengal", "bengal salinity",
        "salinity level", "argo india", "incois argo",
        "indian ocean status" ]),
    ("find_data_access",
      [ "where to download argo data", "get argo profiles",
        "how to access argo netcdf", "argo data download", "gdac",
        "argo ftp" ]),
    ("nearest_floats_concept",
      [ "nearest argo floats to", "floats near",
        "closest argo to coordinates", "argo map", "find argo floats" ]) ]

/-- Model of `re.search(pattern, text)` for the patterns of
`intent_patterns`: all of them are literal (no regex metacharacters), so
`re.search` is substring containment. -/
def re_search (pat text : String) : Bool :=
  containsSub pat text

/-- `FloatChatMinimal.classify_intent`: scan intents in declaration
order, each intent's patterns in order, against the lower-cased input;
first match wins; default `"program_overview"`. -/
def classify_intent (user_text : String) : String :=
  match intent_patterns.find?
      (fun ip => ip.2.any (fun pat => re_search pat (lowerStr user_text))) with
  | some ip => ip.1
  | none => "program_overview"

/-- `self.enhanced_queries` of `FloatChatMinimal`. -/
def enhanced_queries : List (String × String) :=
  [ ("program_overview",
     "Argo program overview what variables measured temperature salinity pressure ocean profiling floats how it works"),
    ("indian_ocean_status",
     "Indian Ocean Argo floats status current number active INCOIS Arabian Sea Bay Bengal distribution"),
    ("find_data_access",
     "Argo data download access GDAC global data assembly centers netCDF files instructions how to"),
    ("nearest_floats_concept",
     "Argo float interactive map finder location coordinates nearest search tools ocean-ops") ]

/-- `FloatChatMinimal.enhance_query`:
`f"{user_text} {self.enhanced_queries.get(intent, self.enhanced_queries['program_overview'])}"`.
(The inner `getD ""` can never apply: `"program_overview"` is a key of
`enhanced_queries`.) -/
def enhance_query (user_text intent : String) : String :=
  user_text ++ " " ++
    ((enhanced_queries.lookup intent).getD
      ((enhanced_queries.lookup "program_overview").getD ""))

/-! ## Helper notions used only to state the claims -/

/-- The declared intent names, in declaration order. -/
def intent_names : List String :=
  intent_patterns.map (fun ip => ip.1)

/-- 0-based declaration position of an intent. -/
def decl_idx (intent : String) : Nat :=
  intent_names.findIdx (fun n => n == intent)

/-- "`T` matches a pattern of intent `i`": some pattern of `i` matches
the lower-cased text, exactly as `classify_intent` tests it. -/
def intent_matches (intent text : String) : Bool :=
  ((intent_patterns.lookup intent).getD []).any
    (fun pat => re_search pat (lowerStr text))

/-! ## Generic facts about the stable insertion sort -/

theorem perm_sortedInsert (le : α → α → Bool) (a : α) (l : List α) :
    List.Perm (sortedInsert le a l) (a :: l) := by
  induction l with
  | nil => exact List.Perm.refl _
  | cons b t ih =>
    by_cases hab : le a b = true
    · simp [sortedInsert, hab]
    · simp only [sortedInsert, hab, if_false, Bool.false_eq_true, if_neg,
        not_false_iff]
      exact (ih.cons b).trans (List.Perm.swap a b t)

theorem perm_stableSort (le : α → α → Bool) (l : List α) :
    List.Perm (stableSort le l) l := by
  induction l with
  | nil => exact List.Perm.refl _
  | cons a t ih =>
    exact (perm_sortedInsert le a (stableSort le t)).trans (ih.cons a)

theorem pairwise_sortedInsert (le : α → α → Bool)
    (total : ∀ x y, le x y = false → le y x = true)
    (trans : ∀ x y z, le x y = true → le y z = true → le x z = true)
    (a : α) (l : List α) (h : l.Pairwise (fun x y => le x y = true)) :
    (sortedInsert le a l).Pairwise (fun x y => le x y = true) := by
  induction l with
  | nil => simp [sortedInsert]
  | cons b t ih =>
    rw [List.pairwise_cons] at h
    obtain ⟨hb, ht⟩ := h
    by_cases hab : le a b = true
    · simp only [sortedInsert, hab, if_true]
      refine List.Pairwise.cons ?_ (List.Pairwise.cons hb ht)
      intro x hx
      rcases List.mem_cons.mp hx with rfl | hxt
      · exact hab
      · exact trans a b x hab (hb x hxt)
    · simp only [sortedInsert, hab, if_false, Bool.false_eq_true, if_neg,
        not_false_iff]
      refine List.Pairwise.cons ?_ (ih ht)
      intro x hx
      have hx' : x = a ∨ x ∈ t := by
        have := (perm_sortedInsert le a t).mem_iff.mp hx
        simpa using this
      rcases hx' with rfl | hxt
      · exact total x b (Bool.eq_false_iff.mpr hab)
      · exact hb x hxt

theorem pairwise_stableSort (le : α → α → Bool)
    (total : ∀ x y, le x y = false → le y x = true)
    (trans : ∀ x y z, le x y = true → le y z = true → le x z = true)
    (l : List α) :
    (stableSort le l).Pairwise (fun x y => le x y = true) := by
  induction l with
  | nil => simp [stableSort]
  | cons a t ih => exact pairwise_sortedInsert le total trans a _ ih

/-! ## Totality and transitivity of the ranking key order -/

theorem tupLE_total (x y : Nat × Int × Nat) (h : tupLE x y = false) :
    tupLE y x = true := by
  obtain ⟨a1, b1, c1⟩ := x
  obtain ⟨a2, b2, c2⟩ := y
  simp only [tupLE, decide_eq_false_iff_not, decide_eq_true_eq] at *
  omega

theorem tupLE_trans (x y z : Nat × Int × Nat)
    (h1 : tupLE x y = true) (h2 : tupLE y z = true) : tupLE x z = true := by
  obtain ⟨a1, b1, c1⟩ := x
  obtain ⟨a2, b2, c2⟩ := y
  obtain ⟨a3, b3, c3⟩ := z
  simp only [tupLE, decide_eq_true_eq] at *
  omega

theorem result_le_total (a b : SearchResult) (h : result_le a b = false) :
    result_le b a = true :=
  tupLE_total _ _ h

theorem result_le_trans (a b c : SearchResult)
    (h1 : result_le a b = true) (h2 : result_le b c = true) :
    result_le a c = true :=
  tupLE_trans _ _ _ h1 h2

/-! ## The claims -/

/-- Claim C1: for every sequence of `SearchResult` records,
`_sort_by_priority` returns a permutation of its input ordered ascending
by the lexicographic three-component key
`(domain priority index, recency bucket, original backend rank)`
computed by `priority_score`, where the priority index is the 0-based
position of the source domain in `priority_domains` and an absent domain
gets the list's length; in particular three results with source domains
`incois.gov.in`, `argo.ucsd.edu` and an unlisted domain, all without
dates, come back in that order. -/
theorem C1_rank_orders_ascending_by_lex_key :
    (∀ results : List SearchResult,
        List.Perm (sort_by_priority results) results ∧
        (sort_by_priority results).Pairwise
          (fun r s => tupLE (priority_score r) (priority_score s) = true)) ∧
    sort_by_priority
        [⟨1, "t1", "https://unknown.example/a", "s1", none, none,
            "unknown.example"⟩,
         ⟨2, "t2", "https://argo.ucsd.edu/b", "s2", none, none,
            "argo.ucsd.edu"⟩,
         ⟨3, "t3", "https://incois.gov.in/c", "s3", none, none,
            "incois.gov.in"⟩] =
      [⟨3, "t3", "https://incois.gov.in/c", "s3", none, none,
          "incois.gov.in"⟩,
       ⟨2, "t2", "https://argo.ucsd.edu/b", "s2", none, none,
          "argo.ucsd.edu"⟩,
       ⟨1, "t1", "https://unknown.example/a", "s1", none, none,
          "unknown.example"⟩] := by
  refine ⟨fun results => ⟨perm_stableSort _ _,
    pairwise_stableSort _ result_le_total result_le_trans _⟩, ?_⟩
  decide

/-- Claim C2, counterexample: with the same domain priority index, a
result whose `published` string lies in the current calendar year (2026)
receives recency bucket `+1` — not the best bucket `−1` — while the
result with no date at all receives `0`, so the undated result sorts
first, contradicting both the claimed recency tie-break and
"current-year-or-newer → −1". -/
theorem C2_counterexample :
    recency_score ⟨1, "t", "https://argo.ucsd.edu/a", "s",
        some "2026-01-15", none, "argo.ucsd.edu"⟩ = 1 ∧
    recency_score ⟨2, "t", "https://argo.ucsd.edu/b", "s",
        none, none, "argo.ucsd.edu"⟩ = 0 ∧
    sort_by_priority
        [⟨1, "t", "https://argo.ucsd.edu/a", "s", some "2026-01-15", none,
            "argo.ucsd.edu"⟩,
         ⟨2, "t", "https://argo.ucsd.edu/b", "s", none, none,
            "argo.ucsd.edu"⟩] =
      [⟨2, "t", "https://argo.ucsd.edu/b", "s", none, none,
          "argo.ucsd.edu"⟩,
       ⟨1, "t", "https://argo.ucsd.edu/a", "s", some "2026-01-15", none,
          "argo.ucsd.edu"⟩] := by
  decide

/-- Claim C2 as amended: the recency bucket is hardcoded to the years
written in the source, not to the running calendar year: a date string
containing `"2024"` or `"2025"` gets `−1` (best), an absent date gets
`0`, and with equal domain priority index the `2024`/`2025`-dated result
sorts before the undated one (a date in any other year, such as the
actual current year 2026, gets `+1` and sorts after the undated one, as
the counterexample shows). -/
theorem C2_recency_hardcoded_years (r s : SearchResult) (d : String)
    (hrd : r.published = some d)
    (hd : (containsSub "2024" d || containsSub "2025" d) = true)
    (hsp : s.published = none) (hsu : s.updated = none)
    (hidx : priority_idx r.source = priority_idx s.source) :
    recency_score r = -1 ∧ recency_score s = 0 ∧
    sort_by_priority [s, r] = [r, s] := by
  have hne : ¬(d = "") := by rintro rfl; revert hd; decide
  have hbe : (d == "") = false := beq_eq_false_iff_ne.mpr hne
  have hr : recency_score r = -1 := by
    simp [recency_score, hrd, truthy, hbe, hd]
  have hs : recency_score s = 0 := by
    simp [recency_score, hsp, hsu, truthy]
  have hsr : result_le s r = false := by
    simp only [result_le, priority_score, hr, hs, hidx, tupLE,
      decide_eq_false_iff_not]
    omega
  refine ⟨hr, hs, ?_⟩
  simp [sort_by_priority, stableSort, sortedInsert, hsr]

/-- Witness for the amended claim C2: a result updated in March 2025
sorts ahead of an undated result from the same domain. -/
theorem C2_recency_hardcoded_years_witness :
    recency_score ⟨1, "t", "https://argo.ucsd.edu/a", "s",
        some "Updated March 2025", none, "argo.ucsd.edu"⟩ = -1 ∧
    recency_score ⟨2, "t", "https://argo.ucsd.edu/b", "s",
        none, none, "argo.ucsd.edu"⟩ = 0 ∧
    sort_by_priority
        [⟨2, "t", "https://argo.ucsd.edu/b", "s", none, none,
            "argo.ucsd.edu"⟩,
         ⟨1, "t", "https://argo.ucsd.edu/a", "s", some "Updated March 2025",
            none, "argo.ucsd.edu"⟩] =
      [⟨1, "t", "https://argo.ucsd.edu/a", "s", some "Updated March 2025",
          none, "argo.ucsd.edu"⟩,
       ⟨2, "t", "https://argo.ucsd.edu/b", "s", none, none,
          "argo.ucsd.edu"⟩] :=
  C2_recency_hardcoded_years
    ⟨1, "t", "https://argo.ucsd.edu/a", "s", some "Updated March 2025",
        none, "argo.ucsd.edu"⟩
    ⟨2, "t", "https://argo.ucsd.edu/b", "s", none, none, "argo.ucsd.edu"⟩
    "Updated March 2025" rfl (by decide) rfl rfl rfl

/-- A `findIdx` smaller than the list's length means the sought element
is in the list. -/
theorem mem_of_findIdx_lt_length {d : String} {l : List String}
    (h : l.findIdx (fun x => x == d) < l.length) : d ∈ l := by
  induction l with
  | nil => simp at h
  | cons a t ih =>
    rw [List.findIdx_cons] at h
    by_cases ha : (a == d) = true
    · have had : a = d := beq_iff_eq.mp ha
      subst had
      exact List.mem_cons_self _ _
    · rw [Bool.eq_false_iff.mpr ha] at h
      simp only [cond_false, List.length_cons] at h
      exact List.mem_cons_of_mem _ (ih (by omega))

/-- Claim C3, counterexample: the claim's "only `incois.gov.in`,
`argo.ucsd.edu`, or `doi.org` can ever receive a priority index smaller
than the list's length" is false — a hit whose host carries a doubled
`www.` prefix derives a source domain equal to a `www.`-prefixed
priority entry and receives index 3. -/
theorem C3_counterexample :
    extract_domain "https://www.www.ocean-ops.org/board" =
        "www.ocean-ops.org" ∧
    priority_idx
        (extract_domain "https://www.www.ocean-ops.org/board") = 3 ∧
    3 < priority_domains.length ∧
    extract_domain "https://www.www.ocean-ops.org/board" ∉
      (["incois.gov.in", "argo.ucsd.edu", "doi.org"] : List String) := by
  decide

/-- Claim C3 as amended: for a hit whose URL host is any of the seven
`www.`-prefixed priority entries, the derived source domain never
equals that entry and gets the unknown-domain index (the list's
length); and a priority index smaller than the list's length is only
ever received by a source domain that is itself a member of the
priority list — i.e. `incois.gov.in`, `argo.ucsd.edu`, `doi.org`, or
one of the seven `www.`-prefixed entries themselves, the latter being
reachable only from hosts with a doubled `www.` prefix. -/
theorem C3_www_entries_unreachable_from_their_hosts :
    (∀ url h, h ∈ (["www.ocean-ops.org", "www.usgodae.org",
        "www.seanoe.org", "www.ncei.noaa.gov", "www.jcommops.org",
        "www.euro-argo.eu", "www.ifremer.fr"] : List String) →
      extractNetloc url = h →
      extract_domain url ≠ h ∧
      priority_idx (extract_domain url) = priority_domains.length) ∧
    (∀ url, priority_idx (extract_domain url) < priority_domains.length →
      extract_domain url ∈ priority_domains) := by
  constructor
  · intro url h hm he
    fin_cases hm <;> · simp only [extract_domain, he]; decide
  · intro url hlt
    exact mem_of_findIdx_lt_length hlt

/-- Witness for the amended claim C3: the host `www.ocean-ops.org`
itself derives `ocean-ops.org` and gets the unknown index 10, while the
domain derived from `https://incois.gov.in/...` has index < 10 and is a
member of the priority list. -/
theorem C3_www_entries_unreachable_witness :
    (extract_domain "https://www.ocean-ops.org/board" ≠
        "www.ocean-ops.org" ∧
     priority_idx (extract_domain "https://www.ocean-ops.org/board") =
        priority_domains.length) ∧
    extract_domain "https://incois.gov.in/argo" ∈ priority_domains :=
  ⟨C3_www_entries_unreachable_from_their_hosts.1
      "https://www.ocean-ops.org/board" "www.ocean-ops.org"
      (by decide) (by decide),
   C3_www_entries_unreachable_from_their_hosts.2
      "https://incois.gov.in/argo" (by decide)⟩

/-- Claim C4: whenever the backend call fails (network error, non-2xx
status, malformed payload — all modelled by the backend returning
`none`, exactly the cases caught by the `except` clauses of `search`),
`search` returns the empty result sequence: the caller receives "zero
results" as an ordinary value, never an exception. -/
theorem C4_backend_failure_yields_empty
    (backendFn : BackendRequest → Option (List Item))
    (query : String) (site_filter : Option (List String))
    (time_range : String) (top_k : Int)
    (h : backendFn (buildParams query site_filter time_range top_k) = none) :
    search backendFn query site_filter time_range top_k = [] := by
  simp [search, h]

/-- Witness for claim C4: a backend that always fails yields `[]`. -/
theorem C4_backend_failure_yields_empty_witness :
    search (fun _ => none) "argo floats" none "year" 5 = [] :=
  C4_backend_failure_yields_empty (fun _ => none) "argo floats" none
    "year" 5 rfl

/-- Claim C5: every result `search` returns has a source domain that
matches no deny-list pattern (so a hit whose derived domain contains
e.g. `facebook.com` never appears in the output), and the source domain
is exactly the one derived from the result's URL; moreover the drop
happens before ranking and before the cap: with the disallowed hit
first in the backend order and a cap of 2, both allowed hits still fill
the two capped slots. -/
theorem C5_disallowed_domains_never_in_output :
    (∀ (backendFn : BackendRequest → Option (List Item))
       (query : String) (site_filter : Option (List String))
       (time_range : String) (top_k : Int),
      ∀ r ∈ search backendFn query site_filter time_range top_k,
        is_disallowed_domain r.source = false ∧
        r.source = extract_domain r.url) ∧
    search (fun _ => some
        [⟨"https://www.facebook.com/argoproject", "fb", "s0", none⟩,
         ⟨"https://example.org/a", "t1", "s1", none⟩,
         ⟨"https://example.net/b", "t2", "s2", none⟩])
        "q" none "year" 2 =
      [⟨2, "t1", "https://example.org/a", "s1", none, none, "example.org"⟩,
       ⟨3, "t2", "https://example.net/b", "s2", none, none,
          "example.net"⟩] := by
  constructor
  · intro bf q sf tr k r hr
    rcases hbf : bf (buildParams q sf tr k) with _ | items
    · rw [search, hbf] at hr
      simp at hr
    · rw [search, hbf] at hr
      have hr1 : r ∈ sort_by_priority (parse_results items) := by
        simp only [pySliceTo] at hr
        split at hr <;> exact List.mem_of_mem_take hr
      have hr2 : r ∈ parse_results items :=
        (perm_stableSort result_le (parse_results items)).mem_iff.mp hr1
      simp only [parse_results, List.mem_filterMap] at hr2
      obtain ⟨p, hp, hmk⟩ := hr2
      by_cases hdis : is_disallowed_domain (extract_domain p.2.link) = true
      · rw [if_pos hdis] at hmk
        cases hmk
      · rw [if_neg hdis] at hmk
        have hmk' := Option.some.inj hmk
        constructor
        · rw [← hmk']
          exact Bool.eq_false_iff.mpr hdis
        · rw [← hmk']
  · decide

/-- Witness for claim C5: the `example.org` result that `search`
returned indeed has a non-disallowed source derived from its URL. -/
theorem C5_disallowed_domains_never_in_output_witness :
    is_disallowed_domain
      (SearchResult.source ⟨2, "t1", "https://example.org/a", "s1", none,
          none, "example.org"⟩) = false ∧
    SearchResult.source ⟨2, "t1", "https://example.org/a", "s1", none,
        none, "example.org"⟩ =
      extract_domain (SearchResult.url ⟨2, "t1", "https://example.org/a",
          "s1", none, none, "example.org"⟩) :=
  C5_disallowed_domains_never_in_output.1
    (fun _ => some
      [⟨"https://www.facebook.com/argoproject", "fb", "s0", none⟩,
       ⟨"https://example.org/a", "t1", "s1", none⟩,
       ⟨"https://example.net/b", "t2", "s2", none⟩])
    "q" none "year" 2
    ⟨2, "t1", "https://example.org/a", "s1", none, none, "example.org"⟩
    (by decide)

/-- Claim C6: the `/search` endpoint rejects a `top_k` outside `[1,10]`
or a `time_range` outside `{any, year, month, week}` with a 400 error
before any backend call happens (the backend-call counter stays 0), and
passes valid values through to the search tool unchanged — no silent
clamping. -/
theorem C6_validation_rejects_before_backend
    (backendFn : BackendRequest → Option (List Item))
    (req : SearchRequest) :
    ((req.top_k < 1 ∨ req.top_k > 10) →
      handleSearch backendFn req =
        (Except.error (400, "top_k must be between 1 and 10"), 0)) ∧
    (1 ≤ req.top_k → req.top_k ≤ 10 →
      req.time_range ∉ (["any", "year", "month", "week"] : List String) →
      handleSearch backendFn req =
        (Except.error (400, "Invalid time_range"), 0)) ∧
    (1 ≤ req.top_k → req.top_k ≤ 10 →
      req.time_range ∈ (["any", "year", "month", "week"] : List String) →
      handleSearch backendFn req =
        (Except.ok (search backendFn req.query req.site_filter
            req.time_range req.top_k), 1)) := by
  refine ⟨?_, ?_, ?_⟩
  · intro h
    rw [handleSearch, if_pos h]
  · intro h1 h2 h3
    rw [handleSearch, if_neg (by omega), if_pos h3]
  · intro h1 h2 h3
    rw [handleSearch, if_neg (by omega), if_neg (not_not_intro h3)]

/-- Witness for claim C6: `top_k = 0` and an unknown time range are
each rejected with zero backend calls, and a valid request reaches the
search tool with its exact parameters. -/
theorem C6_validation_rejects_before_backend_witness :
    handleSearch (fun _ => none) ⟨"q", none, "year", 0⟩ =
      (Except.error (400, "top_k must be between 1 and 10"), 0) ∧
    handleSearch (fun _ => none) ⟨"q", none, "decade", 5⟩ =
      (Except.error (400, "Invalid time_range"), 0) ∧
    handleSearch (fun _ => none) ⟨"q", none, "year", 5⟩ =
      (Except.ok (search (fun _ => none) "q" none "year" 5), 1) :=
  ⟨(C6_validation_rejects_before_backend (fun _ => none)
      ⟨"q", none, "year", 0⟩).1 (by decide),
   (C6_validation_rejects_before_backend (fun _ => none)
      ⟨"q", none, "decade", 5⟩).2.1 (by decide) (by decide) (by decide),
   (C6_validation_rejects_before_backend (fun _ => none)
      ⟨"q", none, "year", 5⟩).2.2 (by decide) (by decide) (by decide)⟩

/-- Claim C7: `classify_intent` is a total function (a Lean function,
hence pure and deterministic) that always returns a member of the fixed
intent set, and returns the default intent `program_overview` on the
empty string and on text matching no pattern. -/
theorem C7_classifier_total_with_default :
    (∀ T : String, classify_intent T ∈ intent_names) ∧
    classify_intent "" = "program_overview" ∧
    classify_intent "zzz_no_match_zzz" = "program_overview" := by
  refine ⟨?_, by decide, by decide⟩
  intro T
  rcases hf : intent_patterns.find?
      (fun ip => ip.2.any (fun pat => re_search pat (lowerStr T))) with _ | ip
  · simp only [classify_intent, hf]
    decide
  · simp only [classify_intent, hf]
    exact List.mem_map_of_mem _ (List.mem_of_find?_eq_some hf)

/-- `find?` returns the element at position `i` when that element
satisfies the predicate and all earlier elements do not. -/
theorem find?_eq_get_of_earlier_false {α : Type _} (p : α → Bool)
    (l : List α) (i : Nat) (hi : i < l.length)
    (hp : p (l.get ⟨i, hi⟩) = true)
    (hearlier : ∀ j (hj : j < i),
      p (l.get ⟨j, Nat.lt_trans hj hi⟩) = false) :
    l.find? p = some (l.get ⟨i, hi⟩) := by
  induction l generalizing i with
  | nil => exact absurd hi (by simp)
  | cons a t ih =>
    cases i with
    | zero =>
      exact List.find?_cons_of_pos _ hp
    | succ n =>
      have h0 : p a = false := hearlier 0 (Nat.succ_pos n)
      rw [List.find?_cons_of_neg _ (by simp [h0])]
      exact ih n (by simpa using hi) hp
        (fun j hj => hearlier (j + 1) (by omega))

/-- Claim C8, counterexample: the text
`"What is Argo bay of bengal gdac"` matches a pattern of
`indian_ocean_status` (declared before `find_data_access`) and a
pattern of `find_data_access`, yet `classify_intent` does not return
`indian_ocean_status` — it returns `program_overview`, because a
pattern of a still earlier intent also matches; the claim's universal
statement omits that side condition. -/
theorem C8_counterexample :
    decl_idx "indian_ocean_status" < decl_idx "find_data_access" ∧
    intent_matches "indian_ocean_status"
        "What is Argo bay of bengal gdac" = true ∧
    intent_matches "find_data_access"
        "What is Argo bay of bengal gdac" = true ∧
    classify_intent "What is Argo bay of bengal gdac" ≠
      "indian_ocean_status" := by
  decide

/-- Claim C8 as amended: if text `T` matches a pattern of intent `A`
and a pattern of intent `B`, with `A` declared before `B`, **and no
intent declared before `A` has a matching pattern**, then
`classify_intent T = A` — intents are scanned in declaration order,
each intent's patterns in fixed order, against the lower-cased input,
and the first match wins. -/
theorem C8_first_match_in_declaration_order (T A B : String)
    (hA : A ∈ intent_names) (hB : B ∈ intent_names)
    (hAB : decl_idx A < decl_idx B)
    (hmA : intent_matches A T = true) (hmB : intent_matches B T = true)
    (hearlier : ∀ C ∈ intent_names, decl_idx C < decl_idx A →
      intent_matches C T = false) :
    classify_intent T = A := by
  have hA' : A = "program_overview" ∨ A = "indian_ocean_status" ∨
      A = "find_data_access" ∨ A = "nearest_floats_concept" := by
    simpa [intent_names, intent_patterns] using hA
  rcases hA' with rfl | rfl | rfl | rfl
  · have hfind := find?_eq_get_of_earlier_false
        (fun ip => ip.2.any (fun pat => re_search pat (lowerStr T)))
        intent_patterns 0 (by decide) hmA
        (fun j hj => absurd hj (by omega))
    simp only [classify_intent, hfind]
    rfl
  · have hfind := find?_eq_get_of_earlier_false
        (fun ip => ip.2.any (fun pat => re_search pat (lowerStr T)))
        intent_patterns 1 (by decide) hmA
        (fun j hj => by
          cases j with
          | zero => exact hearlier "program_overview" (by decide) (by decide)
          | succ n => omega)
    simp only [classify_intent, hfind]
    rfl
  · have hfind := find?_eq_get_of_earlier_false
        (fun ip => ip.2.any (fun pat => re_search pat (lowerStr T)))
        intent_patterns 2 (by decide) hmA
        (fun j hj => by
          cases j with
          | zero => exact hearlier "program_overview" (by decide) (by decide)
          | succ n =>
            cases n with
            | zero =>
              exact hearlier "indian_ocean_status" (by decide) (by decide)
            | succ m => omega)
    simp only [classify_intent, hfind]
    rfl
  · have hfind := find?_eq_get_of_earlier_false
        (fun ip => ip.2.any (fun pat => re_search pat (lowerStr T)))
        intent_patterns 3 (by decide) hmA
        (fun j hj => by
          cases j with
          | zero => exact hearlier "program_overview" (by decide) (by decide)
          | succ n =>
            cases n with
            | zero =>
              exact hearlier "indian_ocean_status" (by decide) (by decide)
            | succ m =>
              cases m with
              | zero =>
                exact hearlier "find_data_access" (by decide) (by decide)
              | succ k => omega)
    simp only [classify_intent, hfind]
    rfl

/-- Witness for the amended claim C8: `"bay of bengal gdac"` matches
`indian_ocean_status` (declared second) and `find_data_access`
(declared third), no earlier intent matches, and classification indeed
returns `indian_ocean_status`. -/
theorem C8_first_match_in_declaration_order_witness :
    classify_intent "bay of bengal gdac" = "indian_ocean_status" :=
  C8_first_match_in_declaration_order "bay of bengal gdac"
    "indian_ocean_status" "find_data_access"
    (by decide) (by decide) (by decide) (by decide) (by decide)
    (by decide)

/-- A string of the shape `t ++ " " ++ x` is never empty. -/
theorem append_space_ne_empty (t x : String) : t ++ " " ++ x ≠ "" := by
  intro h
  have h2 := congrArg String.length h
  rw [String.length_append, String.length_append] at h2
  have hsp : (" " : String).length = 1 := rfl
  have hem : ("" : String).length = 0 := rfl
  rw [hsp, hem] at h2
  omega

/-- Claim C9: `enhance_query` returns exactly the input text, a single
space, and the fixed hint string for the intent — the default intent's
hint when the intent is unrecognized; the result is non-empty, contains
the text as a prefix, and the function never fails (it is total). -/
theorem C9_enhancer_appends_fixed_hint (t i : String) :
    enhance_query t i ≠ "" ∧
    (∃ s, enhance_query t i = t ++ s) ∧
    (∀ h, enhanced_queries.lookup i = some h →
      enhance_query t i = t ++ " " ++ h) ∧
    (enhanced_queries.lookup i = none →
      enhance_query t i = t ++ " " ++
        "Argo program overview what variables measured temperature salinity pressure ocean profiling floats how it works") := by
  refine ⟨?_, ?_, ?_, ?_⟩
  · exact append_space_ne_empty t _
  · exact ⟨" " ++ ((enhanced_queries.lookup i).getD
        ((enhanced_queries.lookup "program_overview").getD "")),
      String.append_assoc _ _ _⟩
  · intro h hh
    simp [enhance_query, hh]
  · intro hnone
    unfold enhance_query
    rw [hnone]
    rfl

/-- Witness for claim C9 at an unrecognized intent: the result is the
text plus a space plus the default hint, non-empty, with the text as a
prefix. -/
theorem C9_enhancer_appends_fixed_hint_witness :
    enhance_query "What is Argo?" "bogus_intent" ≠ "" ∧
    (∃ s, enhance_query "What is Argo?" "bogus_intent" =
      "What is Argo?" ++ s) ∧
    enhance_query "What is Argo?" "bogus_intent" = "What is Argo?" ++ " " ++
      "Argo program overview what variables measured temperature salinity pressure ocean profiling floats how it works" :=
  ⟨(C9_enhancer_appends_fixed_hint "What is Argo?" "bogus_intent").1,
   (C9_enhancer_appends_fixed_hint "What is Argo?" "bogus_intent").2.1,
   (C9_enhancer_appends_fixed_hint "What is Argo?" "bogus_intent").2.2.2
     (by decide)⟩

/-- Claim C10: for every query and every cap in `[1, 10]`, `search`
returns at most `top_k` results, even when the backend returns more
allowed-domain hits than the cap. -/
theorem C10_cap_enforced (backendFn : BackendRequest → Option (List Item))
    (query : String) (site_filter : Option (List String))
    (time_range : String) (k : Int) (h1 : 1 ≤ k) (h2 : k ≤ 10) :
    (search backendFn query site_filter time_range k).length ≤ k.toNat := by
  rcases hbf : backendFn (buildParams query site_filter time_range k)
      with _ | items
  · simp [search, hbf]
  · simp only [search, hbf, pySliceTo, if_pos (show (0:Int) ≤ k by omega)]
    exact List.length_take_le _ _

/-- Witness for claim C10: a backend with ten allowed-domain hits and a
cap of 3 yields at most 3 results. -/
theorem C10_cap_enforced_witness :
    (search
      (fun _ => some (List.replicate 10
        ⟨"https://example.org/a", "t", "s", none⟩))
      "q" none "year" 3).length ≤ (3 : Int).toNat :=
  C10_cap_enforced
    (fun _ => some (List.replicate 10
      ⟨"https://example.org/a", "t", "s", none⟩))
    "q" none "year" 3 (by decide) (by decide)

end FloatChat
